import Mathlib

/-
Verification development for the Stelliberty IPC transport core
(src/native/hub/src/atoms/ipc_client/client.rs) and the delay-testing
engine (src/native/hub/src/molecules/delay_testing/tester.rs).

The Rust code is shallowly embedded: byte streams are lists of byte
values (Nat, each < 256 in practice), machine integers are Nat/Int,
async reads over a stream are modelled as pure functions over the list
of bytes the peer will deliver plus a flag saying whether the peer
closes the stream afterwards; a read that would block forever (and any
fuel exhaustion) is modelled as Option.none.
-/

set_option linter.unusedVariables false

/-! ## Byte-level utilities shared by the codec -/

-- ASCII whitespace test, matching the characters str::trim and
-- split_whitespace strip in the ASCII range used by this protocol.
def isWSB (b : Nat) : Bool := b == 32 || b == 9 || b == 10 || b == 13

-- str::trim on a byte string (ASCII whitespace).
def trimBytes (l : List Nat) : List Nat :=
  ((l.dropWhile isWSB).reverse.dropWhile isWSB).reverse

-- Bytes of an ASCII string literal.
def asciiBytes (s : String) : List Nat := s.data.map Char.toNat

def hexDigitVal (b : Nat) : Option Nat :=
  if 48 ≤ b ∧ b ≤ 57 then some (b - 48)
  else if 97 ≤ b ∧ b ≤ 102 then some (b - 87)
  else if 65 ≤ b ∧ b ≤ 70 then some (b - 55)
  else none

def hexCore : Nat → List Nat → Option Nat
  | acc, [] => some acc
  | acc, b :: r =>
    match hexDigitVal b with
    | some d => hexCore (16 * acc + d) r
    | none => none

-- usize::from_str_radix(s, 16): optional leading '+', then a nonempty
-- run of hex digits.  (usize overflow for astronomically large inputs
-- is not modelled; Nat is unbounded.)
def from_str_radix_16 (l : List Nat) : Option Nat :=
  match l with
  | [] => none
  | 43 :: r => if r = [] then none else hexCore 0 r
  | _ => hexCore 0 l

def decDigitVal (b : Nat) : Option Nat :=
  if 48 ≤ b ∧ b ≤ 57 then some (b - 48) else none

def decCore : Nat → List Nat → Option Nat
  | acc, [] => some acc
  | acc, b :: r =>
    match decDigitVal b with
    | some d => decCore (10 * acc + d) r
    | none => none

-- str::parse::<usize>() : optional leading '+', nonempty decimal run.
def parse_usize (l : List Nat) : Option Nat :=
  match l with
  | [] => none
  | 43 :: r => if r = [] then none else decCore 0 r
  | _ => decCore 0 l

-- str::parse::<u16>() : same grammar, value must fit in 16 bits.
def parse_u16 (l : List Nat) : Option Nat :=
  match parse_usize l with
  | some v => if v < 65536 then some v else none
  | none => none

def lowerB (b : Nat) : Nat := if 65 ≤ b ∧ b ≤ 90 then b + 32 else b

-- str::eq_ignore_ascii_case
def eqIgnoreCase (a b : List Nat) : Bool := a.map lowerB == b.map lowerB

-- str::contains(pattern) — substring search.
def containsSeq (pat : List Nat) : List Nat → Bool
  | [] => pat.isEmpty
  | b :: r => pat.isPrefixOf (b :: r) || containsSeq pat r

-- str::split_once(':')
def splitOnceColon : List Nat → Option (List Nat × List Nat)
  | [] => none
  | b :: r =>
    if b == 58 then some ([], r)
    else
      match splitOnceColon r with
      | some (k, v) => some (b :: k, v)
      | none => none

def splitWsAux : List Nat → List Nat → List (List Nat)
  | acc, [] => if acc.isEmpty then [] else [acc.reverse]
  | acc, b :: r =>
    if isWSB b then
      if acc.isEmpty then splitWsAux [] r else acc.reverse :: splitWsAux [] r
    else splitWsAux (b :: acc) r

-- str::split_whitespace (ASCII range)
def split_whitespace (l : List Nat) : List (List Nat) := splitWsAux [] l

/-! ## Stream read primitives

A stream is the list of bytes the peer will still deliver, together
with a flag `closed` telling whether the peer closes the stream after
those bytes.  `none` models a read that blocks forever. -/

-- AsyncBufReadExt::read_line up to and including a newline byte; at
-- end-of-stream on a closed stream it returns the (possibly empty)
-- remainder, on an open stream it would block forever.
def readLineP (closed : Bool) : List Nat → Option (List Nat × List Nat)
  | [] => if closed then some ([], []) else none
  | b :: r =>
    if b == 10 then some ([b], r)
    else
      match readLineP closed r with
      | some (l, rest) => some (b :: l, rest)
      | none => none

-- AsyncReadExt::read_exact: fills the whole buffer, errors with
-- UnexpectedEof when the peer closed early, blocks when it just stalls.
def readExactP (closed : Bool) : Nat → List Nat → Option (Except Unit (List Nat × List Nat))
  | 0, s => some (.ok ([], s))
  | _ + 1, [] => if closed then some (.error ()) else none
  | n + 1, b :: s =>
    match readExactP closed n s with
    | some (.ok (c, r)) => some (.ok (b :: c, r))
    | some (.error e) => some (.error e)
    | none => none

def contB (b : Nat) : Bool := decide (128 ≤ b ∧ b ≤ 191)

-- String::from_utf8 validity (RFC 3629 table, as checked by Rust:
-- rejects overlongs, surrogates and values above U+10FFFF).
def validUtf8 : List Nat → Bool
  | [] => true
  | b :: rest =>
    if b ≤ 127 then validUtf8 rest
    else if 194 ≤ b ∧ b ≤ 223 then
      match rest with
      | c1 :: r => contB c1 && validUtf8 r
      | [] => false
    else if b = 224 then
      match rest with
      | c1 :: c2 :: r => decide (160 ≤ c1 ∧ c1 ≤ 191) && contB c2 && validUtf8 r
      | _ => false
    else if (225 ≤ b ∧ b ≤ 236) ∨ b = 238 ∨ b = 239 then
      match rest with
      | c1 :: c2 :: r => contB c1 && contB c2 && validUtf8 r
      | _ => false
    else if b = 237 then
      match rest with
      | c1 :: c2 :: r => decide (128 ≤ c1 ∧ c1 ≤ 159) && contB c2 && validUtf8 r
      | _ => false
    else if b = 240 then
      match rest with
      | c1 :: c2 :: c3 :: r =>
        decide (144 ≤ c1 ∧ c1 ≤ 191) && contB c2 && contB c3 && validUtf8 r
      | _ => false
    else if 241 ≤ b ∧ b ≤ 243 then
      match rest with
      | c1 :: c2 :: c3 :: r => contB c1 && contB c2 && contB c3 && validUtf8 r
      | _ => false
    else if b = 244 then
      match rest with
      | c1 :: c2 :: c3 :: r =>
        decide (128 ≤ c1 ∧ c1 ≤ 143) && contB c2 && contB c3 && validUtf8 r
      | _ => false
    else false

/-! ## Connection pool (client.rs lines 30-57, 165-195) -/

def MAX_POOL_SIZE : Nat := 30
def IDLE_TIMEOUT_MS : Nat := 35000

-- Outcome of IpcStream::try_read on a 1-byte buffer.
inductive TryReadResult where
  | ok (n : Nat)
  | wouldBlock
  | otherErr
deriving DecidableEq

-- A pooled connection at the moment acquire inspects it: `age` is
-- last_used.elapsed() in milliseconds, `probe` the result try_read
-- would give.  The stream handle itself carries no further state the
-- pool logic inspects.
structure PooledConnection where
  age : Nat
  probe : TryReadResult
deriving DecidableEq

-- PooledConnection::is_valid (client.rs lines 39-50).
def PooledConnection.is_valid (c : PooledConnection) : Bool :=
  match c.probe with
  | .ok 0 => false
  | .ok _ => false
  | .wouldBlock => true
  | .otherErr => false

inductive AcquireResult where
  | pooled (c : PooledConnection)
  | fresh
deriving DecidableEq

-- IpcClient::acquire_connection (client.rs lines 165-185): pop idle
-- entries from the front; return the first one that is young enough
-- and passes the liveness probe; with the pool exhausted, fall back to
-- a fresh connect.  Returns the outcome and the remaining idle pool.
def acquire_connection : List PooledConnection → AcquireResult × List PooledConnection
  | [] => (.fresh, [])
  | c :: rest =>
    if c.age < IDLE_TIMEOUT_MS ∧ c.is_valid then (.pooled c, rest)
    else acquire_connection rest

-- IpcClient::release_connection (client.rs lines 187-195): push back
-- only below capacity, with last_used refreshed to now (age 0).
def release_connection (pool : List PooledConnection) (c : PooledConnection) :
    List PooledConnection :=
  if pool.length < MAX_POOL_SIZE then pool ++ [c] else pool

inductive PoolOp where
  | acquire
  | release (c : PooledConnection)

def applyPoolOp (pool : List PooledConnection) : PoolOp → List PooledConnection
  | .acquire => (acquire_connection pool).2
  | .release c => release_connection pool c

-- The idle pool produced by a sequence of acquire/release operations
-- starting from the empty pool the process begins with.
def runPoolOps (ops : List PoolOp) : List PooledConnection :=
  ops.foldl applyPoolOp []

/-! ## Error model

The Rust client reports errors as Strings; each distinct message shape
produced in client.rs becomes one constructor.  `httpStatus c` is the
string "HTTP c" built by get / get_with_pool. -/

inductive IpcError where
  | connClosed          -- 连接意外关闭 (stream closed before the blank header line)
  | emptyResponse       -- 响应为空 (no header lines at all)
  | badStatusLine       -- 无效的状态行
  | badStatusCode       -- 无效的状态码
  | readLineErr         -- 读取响应行失败 (read_line failed, e.g. non-UTF-8 line)
  | bodyReadErr         -- 读取响应体失败
  | bodyDecodeErr       -- 解码响应体失败 (body not UTF-8)
  | bodyTimeout         -- 读取响应体超时 (5 s read-to-close guard expired)
  | chunkSizeReadErr    -- 读取 chunk 大小失败
  | chunkParseErr       -- 解析 chunk 大小失败
  | chunkDataReadErr    -- 读取 chunk 数据失败
  | chunkDecodeErr      -- 解码 chunked body 失败
  | connectErr          -- 连接失败
  | sendErr             -- 发送请求失败
  | httpStatus (code : Nat)  -- "HTTP {status_code}" from the get wrappers
deriving DecidableEq

structure IpcHttpResponse where
  status_code : Nat
  body : List Nat
deriving DecidableEq

namespace IpcClient

/-! ## Chunked body decoder (client.rs lines 327-366) -/

-- IpcClient::read_chunked_body.  `fuel` bounds the loop; `none` means
-- the decoder never finishes (a read blocks forever, or fuel ran out).
-- Returns the accumulated body bytes and the unread remainder of the
-- stream.
def read_chunked_body (closed : Bool) :
    Nat → List Nat → List Nat → Option (Except IpcError (List Nat × List Nat))
  | 0, _, _ => none
  | fuel + 1, body, s =>
    match readLineP closed s with
    | none => none
    | some (line, s1) =>
      if validUtf8 line = false then some (.error .chunkSizeReadErr)
      else
        let sz := trimBytes line
        if sz.isEmpty then read_chunked_body closed fuel body s1
        else
          match from_str_radix_16 sz with
          | none => some (.error .chunkParseErr)
          | some 0 =>
            -- terminator: consume exactly one trailing line (errors
            -- ignored via .ok()) and stop, decoding the body as UTF-8
            match readLineP closed s1 with
            | none => none
            | some (_, s2) =>
              some (if validUtf8 body then .ok (body, s2) else .error .chunkDecodeErr)
          | some (n + 1) =>
            match readExactP closed (n + 1) s1 with
            | none => none
            | some (.error _) => some (.error .chunkDataReadErr)
            | some (.ok (chunk, s2)) =>
              -- trailing CRLF consumed best-effort (.ok() discards errors)
              match readLineP closed s2 with
              | none => none
              | some (_, s3) => read_chunked_body closed fuel (body ++ chunk) s3

/-! ## Response parsing (client.rs lines 244-325) -/

-- IpcClient::parse_status_code (client.rs lines 316-325).
def parse_status_code (status_line : List Nat) : Except IpcError Nat :=
  let parts := split_whitespace status_line
  if parts.length < 2 then .error .badStatusLine
  else
    match parts[1]? with
    | none => .error .badStatusLine
    | some p =>
      match parse_u16 p with
      | some code => .ok code
      | none => .error .badStatusCode

-- One header line of the scan in client.rs lines 278-290: two
-- independent if's, Content-Length reassigned on every match (an
-- unparsable value resets it to none), chunked flag sticky.
def scanHeaderLine (st : Option Nat × Bool) (line : List Nat) : Option Nat × Bool :=
  match splitOnceColon line with
  | none => st
  | some (k, v) =>
    let key := trimBytes k
    let value := trimBytes v
    let st1 :=
      if eqIgnoreCase key (asciiBytes "content-length") then (parse_usize value, st.2)
      else st
    if eqIgnoreCase key (asciiBytes "transfer-encoding") &&
        containsSeq (asciiBytes "chunked") value then (st1.1, true)
    else st1

def scanHeaders (lines : List (List Nat)) : Option Nat × Bool :=
  lines.foldl scanHeaderLine (none, false)

-- Header-reading loop of read_http_response (client.rs lines 251-268):
-- read lines until the bare "\r\n"; a zero-byte read (closed stream)
-- is an error.  `fuel` bounds the loop; `none` = blocks forever.
def readHeaderLoop (closed : Bool) :
    Nat → List (List Nat) → List Nat → Option (Except IpcError (List (List Nat) × List Nat))
  | 0, _, _ => none
  | fuel + 1, acc, s =>
    match readLineP closed s with
    | none => none
    | some (line, s1) =>
      if validUtf8 line = false then some (.error .readLineErr)
      else if line.length == 0 then some (.error .connClosed)
      else if line = [13, 10] then some (.ok (acc, s1))
      else readHeaderLoop closed fuel (acc ++ [line]) s1

-- Body framing of read_http_response (client.rs lines 292-311), given
-- the flags extracted from the headers and the unread stream.  In the
-- read-until-close fallback, a peer that closes delivers the whole
-- remainder; a peer that stays open trips the 5-second timeout.
def readBodyFramed (closed : Bool) (fuelC : Nat) (is_chunked : Bool)
    (content_length : Option Nat) (s : List Nat) : Option (Except IpcError (List Nat)) :=
  if is_chunked then
    match read_chunked_body closed fuelC [] s with
    | none => none
    | some (.error e) => some (.error e)
    | some (.ok (body, _)) => some (.ok body)
  else
    match content_length with
    | some n =>
      match readExactP closed n s with
      | none => none
      | some (.error _) => some (.error .bodyReadErr)
      | some (.ok (bytes, _)) =>
        some (if validUtf8 bytes then .ok bytes else .error .bodyDecodeErr)
    | none =>
      if closed then some (if validUtf8 s then .ok s else .error .bodyDecodeErr)
      else some (.error .bodyTimeout)

-- IpcClient::read_http_response (client.rs lines 244-314).
def read_http_response (closed : Bool) (fuelH fuelC : Nat) (s : List Nat) :
    Option (Except IpcError IpcHttpResponse) :=
  match readHeaderLoop closed fuelH [] s with
  | none => none
  | some (.error e) => some (.error e)
  | some (.ok (header_lines, s1)) =>
    match header_lines with
    | [] => some (.error .emptyResponse)
    | status_line :: rest =>
      match parse_status_code status_line with
      | .error e => some (.error e)
      | .ok status_code =>
        let (content_length, is_chunked) := scanHeaders rest
        match readBodyFramed closed fuelC is_chunked content_length s1 with
        | none => none
        | some (.error e) => some (.error e)
        | some (.ok body) => some (.ok ⟨status_code, body⟩)

/-! ## get wrappers (client.rs lines 88-107)

The request-sending side is not observable in the response path; both
wrappers parse the peer's response bytes and apply the same status
check.  get connects fresh, get_with_pool goes through the pool. -/

def get (closed : Bool) (fuelH fuelC : Nat) (s : List Nat) :
    Option (Except IpcError (List Nat)) :=
  match read_http_response closed fuelH fuelC s with
  | none => none
  | some (.error e) => some (.error e)
  | some (.ok response) =>
    some (if 200 ≤ response.status_code ∧ response.status_code < 300
          then .ok response.body
          else .error (.httpStatus response.status_code))

def get_with_pool (closed : Bool) (fuelH fuelC : Nat) (s : List Nat) :
    Option (Except IpcError (List Nat)) :=
  match read_http_response closed fuelH fuelC s with
  | none => none
  | some (.error e) => some (.error e)
  | some (.ok response) =>
    some (if 200 ≤ response.status_code ∧ response.status_code < 300
          then .ok response.body
          else .error (.httpStatus response.status_code))

/-! ## Pooled request (client.rs lines 152-163)

The exchange outcome (send_request's result) is a parameter: the model
keeps the pool bookkeeping, which is what the claims are about.  A
released stream re-enters the pool with last_used = now (age 0); the
probe its next liveness check would see is the parameter. -/

def request_with_pool (pool : List PooledConnection)
    (exchange : Except IpcError IpcHttpResponse) (futureProbe : TryReadResult) :
    Except IpcError IpcHttpResponse × List PooledConnection :=
  let pool1 := (acquire_connection pool).2
  match exchange with
  | .ok r => (.ok r, release_connection pool1 ⟨0, futureProbe⟩)
  | .error e => (.error e, pool1)

end IpcClient

/-! ## Named-pipe connector (client.rs lines 109-133)

The OS is modelled as a function from attempt index to the outcome of
ClientOptions::new().open(ipc_path): success, or an error with its
raw_os_error value and an abstract identity `msg` standing for its
display string. -/

inductive AttemptRes where
  | ok
  | err (raw : Option Int) (msg : Nat)
deriving DecidableEq

inductive ConnectOutcome where
  | connected (attempt : Nat)
  | failed (lastMsg : Option Nat)
deriving DecidableEq

-- The `for retry in 0..20` loop: an error with raw OS code 231 (pipe
-- busy) sleeps 15 ms * (retry + 1) and retries; any other error breaks
-- out at once; exhaustion falls through to the final Err built from
-- last_err.  The returned list collects the sleep durations performed,
-- in order.
def connectLoop (att : Nat → AttemptRes) :
    Nat → Nat → Option Nat → List Nat → ConnectOutcome × List Nat
  | 0, _, lastErr, sleeps => (.failed lastErr, sleeps)
  | fuel + 1, retry, lastErr, sleeps =>
    match att retry with
    | .ok => (.connected retry, sleeps)
    | .err raw msg =>
      if raw = some 231 then
        connectLoop att fuel (retry + 1) (some msg) (sleeps ++ [15 * (retry + 1)])
      else (.failed (some msg), sleeps)

-- IpcClient::connect on the named-pipe platform.
def connect_windows (att : Nat → AttemptRes) : ConnectOutcome × List Nat :=
  connectLoop att 20 0 none []

/-! ## Delay tester (tester.rs)

serde_json is external; its observable result on the body is a
parameter: `parsed (some d)` means the body parsed as JSON and
json.get("delay").and_then(as_i64) gave d, `parsed none` means it
parsed but that chain gave no integer, `parseFail` means from_str
failed.  The i64 value is wrapped to i32 by `delay as i32`. -/

-- `x as i32` on an i64 value: truncation to the low 32 bits,
-- reinterpreted as a signed 32-bit value.
def wrapI32 (x : Int) : Int := (x + 2 ^ 31) % 2 ^ 32 - 2 ^ 31

def decDigitsCore : Nat → Nat → List Nat
  | 0, _ => []
  | fuel + 1, n => if n < 10 then [n] else decDigitsCore fuel (n / 10) ++ [n % 10]

-- Decimal digits of n, most significant first.
def decDigits (n : Nat) : List Nat := decDigitsCore (n + 1) n

-- e.contains("HTTP 503") || e.contains("HTTP 504") on the error
-- strings produced by get_with_pool: only the "HTTP {code}" messages
-- contain the substring "HTTP ", and they match exactly when the
-- decimal digits of the code start with 503 or 504.
def errContainsHttp503or504 : IpcError → Bool
  | .httpStatus c =>
    [5, 0, 3].isPrefixOf (decDigits c) || [5, 0, 4].isPrefixOf (decDigits c)
  | _ => false

-- tester.rs lines 203-212: log and report failure.
def timeout_result : Int := -1

-- Outcome of `tokio::time::timeout(timeout, IpcClient::get_with_pool(&path))`
-- followed by serde_json parsing, as seen by test_single_node.
inductive DelayProbe where
  | elapsed                       -- the per-target deadline fired
  | reqErr (e : IpcError)         -- get_with_pool returned Err
  | parseFail                     -- body was not valid JSON
  | parsed (delayField : Option Int)  -- parsed; value of get("delay").and_then(as_i64)
deriving DecidableEq

-- tester.rs lines 216-275: per-target classification.
def test_single_node : DelayProbe → Int
  | .parsed (some delay) => wrapI32 delay
  | .parsed none => -1
  | .parseFail => -1
  | .reqErr e => if errContainsHttp503or504 e then timeout_result else -1
  | .elapsed => timeout_result

structure BatchTestResult where
  node_name : String
  delay_ms : Int
deriving DecidableEq

structure BatchDelayTestComplete where
  is_successful : Bool
  total_count : Nat
  success_count : Nat
  error_message : Option String
deriving DecidableEq

-- tester.rs lines 157-201: the sliding-window dispatch affects only
-- timing; every target yields exactly one BatchTestResult, and the
-- per-element results do not depend on completion order, so the
-- collected list is modelled in input order.  `delayOf` abstracts
-- test_single_node's verdict per target.
def batch_test_delays (node_names : List String) (delayOf : String → Int)
    (concurrency : Nat) : List BatchTestResult :=
  if node_names.isEmpty then []
  else node_names.map (fun n => ⟨n, delayOf n⟩)

-- tester.rs lines 104-153: run the batch, then emit the one completion
-- summary (the returned value models the single
-- BatchDelayTestComplete signal sent to Dart).
def handle_batch_delay_test_request (node_names : List String)
    (delayOf : String → Int) (concurrency : Nat) : BatchDelayTestComplete :=
  let total_count := node_names.length
  let requested_concurrency := max concurrency 1
  let actual_concurrency := min requested_concurrency (max node_names.length 1)
  let results := batch_test_delays node_names delayOf actual_concurrency
  let success_count := (results.filter (fun r => r.delay_ms > 0)).length
  { is_successful := true
    total_count := total_count
    success_count := success_count
    error_message := none }

/-! ## Pool lemmas -/

theorem is_valid_iff_wouldBlock (c : PooledConnection) :
    c.is_valid = true ↔ c.probe = TryReadResult.wouldBlock := by
  obtain ⟨age, probe⟩ := c
  cases probe with
  | ok n =>
    cases n <;> simp [PooledConnection.is_valid]
  | wouldBlock => simp [PooledConnection.is_valid]
  | otherErr => simp [PooledConnection.is_valid]

theorem acquire_pooled_spec :
    ∀ (pool : List PooledConnection) (c : PooledConnection) (rest : List PooledConnection),
      acquire_connection pool = (.pooled c, rest) →
      (c.age < IDLE_TIMEOUT_MS ∧ c.is_valid = true) ∧
      ∃ dropped, pool = dropped ++ c :: rest ∧
        ∀ d ∈ dropped, ¬(d.age < IDLE_TIMEOUT_MS ∧ d.is_valid = true) := by
  intro pool
  induction pool with
  | nil => intro c rest h; simp [acquire_connection] at h
  | cons c' p' ih =>
    intro c rest h
    by_cases hc : c'.age < IDLE_TIMEOUT_MS ∧ c'.is_valid = true
    · rw [acquire_connection, if_pos hc] at h
      obtain ⟨h1, h2⟩ := Prod.mk.injEq .. ▸ h
      cases h1; cases h2
      exact ⟨hc, [], rfl, by simp⟩
    · rw [acquire_connection, if_neg hc] at h
      obtain ⟨hcond, dropped, hsplit, hdrop⟩ := ih c rest h
      exact ⟨hcond, c' :: dropped, by simp [hsplit], by
        intro d hd
        rcases List.mem_cons.mp hd with h | h
        · exact h ▸ hc
        · exact hdrop d h⟩

theorem acquire_fresh_spec :
    ∀ (pool : List PooledConnection) (rest : List PooledConnection),
      acquire_connection pool = (.fresh, rest) →
      rest = [] ∧ ∀ d ∈ pool, ¬(d.age < IDLE_TIMEOUT_MS ∧ d.is_valid = true) := by
  intro pool
  induction pool with
  | nil => intro rest h; simp [acquire_connection] at h; simp [h]
  | cons c' p' ih =>
    intro rest h
    by_cases hc : c'.age < IDLE_TIMEOUT_MS ∧ c'.is_valid = true
    · rw [acquire_connection, if_pos hc] at h
      exact absurd (congrArg Prod.fst h) (by simp)
    · rw [acquire_connection, if_neg hc] at h
      obtain ⟨h1, h2⟩ := ih rest h
      refine ⟨h1, ?_⟩
      intro d hd
      rcases List.mem_cons.mp hd with h | h
      · exact h ▸ hc
      · exact h2 d h

theorem acquire_length_le (pool : List PooledConnection) :
    ((acquire_connection pool).2).length ≤ pool.length := by
  induction pool with
  | nil => simp [acquire_connection]
  | cons c' p' ih =>
    by_cases hc : c'.age < IDLE_TIMEOUT_MS ∧ c'.is_valid = true
    · rw [acquire_connection, if_pos hc]; simp
    · rw [acquire_connection, if_neg hc]; simpa using Nat.le_succ_of_le ih

theorem applyPoolOp_length (pool : List PooledConnection) (op : PoolOp)
    (h : pool.length ≤ MAX_POOL_SIZE) : (applyPoolOp pool op).length ≤ MAX_POOL_SIZE := by
  cases op with
  | acquire => exact le_trans (acquire_length_le pool) h
  | release c =>
    by_cases hlen : pool.length < MAX_POOL_SIZE
    · simp only [applyPoolOp, release_connection, if_pos hlen, List.length_append,
        List.length_singleton]
      omega
    · simpa only [applyPoolOp, release_connection, if_neg hlen] using h

theorem foldl_pool_length (ops : List PoolOp) :
    ∀ (pool : List PooledConnection), pool.length ≤ MAX_POOL_SIZE →
      (ops.foldl applyPoolOp pool).length ≤ MAX_POOL_SIZE := by
  induction ops with
  | nil => intro pool h; simpa using h
  | cons op rest ih =>
    intro pool h
    exact ih (applyPoolOp pool op) (applyPoolOp_length pool op h)

/-- C1: acquire_connection returns a pooled idle connection only if its age
since last_used is strictly below the 35,000 ms idle timeout and its
liveness probe reports would-block; an idle entry whose probe read returns
any byte count (0 or more), or whose age is not below the threshold, is
never returned — it is dropped and acquisition continues with the next
idle entry, falling back to a fresh connect when the pool is exhausted. -/
theorem C1_acquire_validity :
    IDLE_TIMEOUT_MS = 35000 ∧
    (∀ (pool : List PooledConnection) (c : PooledConnection) rest,
      acquire_connection pool = (.pooled c, rest) →
      c.age < 35000 ∧ c.probe = TryReadResult.wouldBlock ∧
      ∃ dropped, pool = dropped ++ c :: rest ∧
        ∀ d ∈ dropped, ¬(d.age < 35000 ∧ d.is_valid = true)) ∧
    (∀ (pool : List PooledConnection) rest,
      acquire_connection pool = (.fresh, rest) →
      rest = [] ∧ ∀ d ∈ pool, ¬(d.age < 35000 ∧ d.is_valid = true)) ∧
    (∀ (age n : Nat), (PooledConnection.mk age (.ok n)).is_valid = false) ∧
    (∀ (age : Nat), (PooledConnection.mk age .otherErr).is_valid = false) := by
  have hto : IDLE_TIMEOUT_MS = 35000 := rfl
  refine ⟨rfl, ?_, ?_, ?_, ?_⟩
  · intro pool c rest h
    obtain ⟨⟨hage, hvalid⟩, dropped, hsplit, hdrop⟩ := acquire_pooled_spec pool c rest h
    exact ⟨hto ▸ hage, (is_valid_iff_wouldBlock c).mp hvalid, dropped, hsplit,
      fun d hd => hto ▸ hdrop d hd⟩
  · intro pool rest h
    obtain ⟨h1, h2⟩ := acquire_fresh_spec pool rest h
    exact ⟨h1, fun d hd => hto ▸ h2 d hd⟩
  · intro age n; cases n <;> simp [PooledConnection.is_valid]
  · intro age; simp [PooledConnection.is_valid]

/-- Witness for C1 at a concrete pool: a stale entry (age 40000) and a
dirty entry (probe read 0 bytes) are skipped, the first young would-block
entry is returned with the rest of the pool behind it. -/
theorem C1_acquire_validity_witness :
    acquire_connection
        [⟨40000, .wouldBlock⟩, ⟨5, .ok 0⟩, ⟨7, .wouldBlock⟩, ⟨1, .wouldBlock⟩] =
      (.pooled ⟨7, .wouldBlock⟩, [⟨1, .wouldBlock⟩]) ∧
    (7 < 35000 ∧ (PooledConnection.mk 7 .wouldBlock).probe = TryReadResult.wouldBlock) ∧
    (∀ rest, acquire_connection [⟨40000, .wouldBlock⟩, ⟨5, .ok 3⟩] = (.fresh, rest) →
      rest = []) := by
  refine ⟨by decide, ?_, ?_⟩
  · obtain ⟨hv, hw, _⟩ := (C1_acquire_validity.2.1
      [⟨40000, .wouldBlock⟩, ⟨5, .ok 0⟩, ⟨7, .wouldBlock⟩, ⟨1, .wouldBlock⟩]
      ⟨7, .wouldBlock⟩ [⟨1, .wouldBlock⟩] (by decide))
    exact ⟨hv, hw⟩
  · intro rest h
    exact (C1_acquire_validity.2.2.1 [⟨40000, .wouldBlock⟩, ⟨5, .ok 3⟩] rest h).1

/-- C2: for all sequences of acquire and release operations starting from
the empty pool, the idle collection length never exceeds 30;
release_connection pushes the stream to the back only when the current
length is strictly below 30 and otherwise drops it, leaving the pool
unchanged. -/
theorem C2_pool_capacity :
    MAX_POOL_SIZE = 30 ∧
    (∀ ops : List PoolOp, (runPoolOps ops).length ≤ 30) ∧
    (∀ (pool : List PooledConnection) (c : PooledConnection),
      pool.length < 30 → release_connection pool c = pool ++ [c]) ∧
    (∀ (pool : List PooledConnection) (c : PooledConnection),
      ¬ pool.length < 30 → release_connection pool c = pool) := by
  refine ⟨rfl, ?_, ?_, ?_⟩
  · intro ops
    simpa using foldl_pool_length ops [] (by simp)
  · intro pool c h
    simp [release_connection, MAX_POOL_SIZE, h]
  · intro pool c h
    simp [release_connection, MAX_POOL_SIZE, h]

/-- Witness for C2: a release onto a pool of 30 idle entries leaves it
unchanged, a release below capacity appends, and a concrete operation
sequence stays within the bound. -/
theorem C2_pool_capacity_witness :
    (runPoolOps [.release ⟨0, .wouldBlock⟩, .release ⟨1, .wouldBlock⟩, .acquire]).length ≤ 30 ∧
    release_connection [] ⟨0, .wouldBlock⟩ = [⟨0, .wouldBlock⟩] ∧
    release_connection (List.replicate 30 ⟨0, .wouldBlock⟩) ⟨1, .wouldBlock⟩ =
      List.replicate 30 ⟨0, .wouldBlock⟩ := by
  refine ⟨C2_pool_capacity.2.1 _, ?_, ?_⟩
  · simpa using C2_pool_capacity.2.2.1 [] ⟨0, .wouldBlock⟩ (by decide)
  · exact C2_pool_capacity.2.2.2 (List.replicate 30 ⟨0, .wouldBlock⟩) ⟨1, .wouldBlock⟩
      (by simp)

/-- C8: a pooled request releases its connection back to the pool if and
only if the exchange succeeded: on an exchange error, request_with_pool
performs no release — the idle collection is exactly what acquisition
left, so the failed connection is dropped and the pool never grows from
a failed request; on success the connection re-enters the pool through
release_connection with last_used refreshed. -/
theorem C8_release_iff_success :
    (∀ (pool : List PooledConnection) (e : IpcError) (p : TryReadResult),
      IpcClient.request_with_pool pool (.error e) p =
        (.error e, (acquire_connection pool).2)) ∧
    (∀ (pool : List PooledConnection) (r : IpcHttpResponse) (p : TryReadResult),
      IpcClient.request_with_pool pool (.ok r) p =
        (.ok r, release_connection (acquire_connection pool).2 ⟨0, p⟩)) ∧
    (∀ (pool : List PooledConnection) (e : IpcError) (p : TryReadResult),
      ((IpcClient.request_with_pool pool (.error e) p).2).length ≤ pool.length) := by
  refine ⟨fun pool e p => rfl, fun pool r p => rfl, ?_⟩
  intro pool e p
  simpa [IpcClient.request_with_pool] using acquire_length_le pool

/-! ## Chunked decoder lemmas -/

theorem readExactP_ok_length (closed : Bool) :
    ∀ (n : Nat) (s c r : List Nat),
      readExactP closed n s = some (.ok (c, r)) → c.length = n := by
  intro n
  induction n with
  | zero =>
    intro s c r h
    simp [readExactP] at h
    simp [h.1]
  | succ m ih =>
    intro s c r h
    cases s with
    | nil =>
      simp only [readExactP] at h
      split at h <;> simp at h
    | cons b s' =>
      simp only [readExactP] at h
      cases hrec : readExactP closed m s' with
      | none => rw [hrec] at h; simp at h
      | some v =>
        cases v with
        | error e => rw [hrec] at h; simp at h
        | ok p =>
          obtain ⟨c', r'⟩ := p
          rw [hrec] at h
          simp only [Option.some.injEq, Except.ok.injEq, Prod.mk.injEq] at h
          obtain ⟨hc, hr⟩ := h
          subst hc
          simp [ih s' c' r' hrec]

/-- C3: the chunked-body decoder loops reading hexadecimal size lines,
skipping blank lines rather than treating them as termination, and failing
with a protocol error when a non-blank size line does not parse as
hexadecimal; a size of zero terminates the body after consuming exactly
one trailing line, so decoding an input encoding chunks of sizes [5, 0]
returns exactly the original 5 data bytes and reads no further size lines
after the zero chunk (the bytes after the terminator line are left
untouched); for every non-zero size the decoder reads exactly that many
bytes, appends them to the body, and consumes the trailing CRLF
best-effort. -/
theorem C3_chunked_decoder :
    (∀ (closed : Bool) (fuel : Nat) (body s : List Nat),
      IpcClient.read_chunked_body closed (fuel + 1) body (13 :: 10 :: s) =
        IpcClient.read_chunked_body closed fuel body s) ∧
    (∀ (closed : Bool) (fuel : Nat) (body s line s1 : List Nat),
      readLineP closed s = some (line, s1) → validUtf8 line = true →
      trimBytes line ≠ [] → from_str_radix_16 (trimBytes line) = none →
      IpcClient.read_chunked_body closed (fuel + 1) body s =
        some (.error .chunkParseErr)) ∧
    (∀ (closed : Bool) (fuel : Nat) (body s line s1 t s2 : List Nat),
      readLineP closed s = some (line, s1) → validUtf8 line = true →
      from_str_radix_16 (trimBytes line) = some 0 → validUtf8 body = true →
      readLineP closed s1 = some (t, s2) →
      IpcClient.read_chunked_body closed (fuel + 1) body s = some (.ok (body, s2))) ∧
    (∀ (closed : Bool) (fuel n : Nat) (body s line s1 chunk s2 t s3 : List Nat),
      readLineP closed s = some (line, s1) → validUtf8 line = true →
      from_str_radix_16 (trimBytes line) = some (n + 1) →
      readExactP closed (n + 1) s1 = some (.ok (chunk, s2)) →
      readLineP closed s2 = some (t, s3) →
      chunk.length = n + 1 ∧
      IpcClient.read_chunked_body closed (fuel + 1) body s =
        IpcClient.read_chunked_body closed fuel (body ++ chunk) s3) ∧
    (∀ (closed : Bool) (X : List Nat),
      IpcClient.read_chunked_body closed 2 []
          ([53, 13, 10, 72, 69, 76, 76, 79, 13, 10, 48, 13, 10, 13, 10] ++ X) =
        some (.ok ([72, 69, 76, 76, 79], X))) := by
  refine ⟨?_, ?_, ?_, ?_, ?_⟩
  · intro closed fuel body s
    rfl
  · intro closed fuel body s line s1 h1 h2 h3 h4
    have h5 : (trimBytes line).isEmpty = false := by
      cases htl : trimBytes line with
      | nil => exact absurd htl h3
      | cons a t => rfl
    simp only [IpcClient.read_chunked_body, h1, h2, h5, h4, Bool.true_eq_false,
      Bool.false_eq_true, if_false]
  · intro closed fuel body s line s1 t s2 h1 h2 h3 hb h4
    have h3' : trimBytes line ≠ [] := by
      intro he
      rw [he] at h3
      simp [from_str_radix_16] at h3
    have h5 : (trimBytes line).isEmpty = false := by
      cases htl : trimBytes line with
      | nil => exact absurd htl h3'
      | cons a t' => rfl
    simp only [IpcClient.read_chunked_body, h1, h2, h5, h3, h4, hb, Bool.true_eq_false,
      Bool.false_eq_true, if_false, if_true]
  · intro closed fuel n body s line s1 chunk s2 t s3 h1 h2 h3 h4 h5
    have hlen := readExactP_ok_length closed (n + 1) s1 chunk s2 h4
    have h3' : trimBytes line ≠ [] := by
      intro he
      rw [he] at h3
      simp [from_str_radix_16] at h3
    have h6 : (trimBytes line).isEmpty = false := by
      cases htl : trimBytes line with
      | nil => exact absurd htl h3'
      | cons a t' => rfl
    refine ⟨hlen, ?_⟩
    simp only [IpcClient.read_chunked_body, h1, h2, h6, h3, h4, h5, Bool.true_eq_false,
      Bool.false_eq_true, if_false]
  · intro closed X
    rfl

/-- Witness for C3 at concrete inputs: a leading blank line is skipped, a
non-hex size line fails, a zero chunk with body "HI" terminates after one
trailing line, a 3-byte chunk is consumed whole, and the [5, 0] encoding
of "HELLO" decodes to exactly those 5 bytes with the trailing junk
untouched. -/
theorem C3_chunked_decoder_witness :
    IpcClient.read_chunked_body true 3 [] (13 :: 10 :: [48, 13, 10, 13, 10]) =
      IpcClient.read_chunked_body true 2 [] [48, 13, 10, 13, 10] ∧
    IpcClient.read_chunked_body true 1 [] [122, 13, 10] = some (.error .chunkParseErr) ∧
    IpcClient.read_chunked_body true 1 [72, 73] [48, 13, 10, 13, 10, 99] =
      some (.ok ([72, 73], [99])) ∧
    ((([65, 66, 67] : List Nat).length = 2 + 1) ∧
      IpcClient.read_chunked_body true 2 [] [51, 13, 10, 65, 66, 67, 13, 10, 48, 13, 10, 13, 10] =
        IpcClient.read_chunked_body true 1 [65, 66, 67] [48, 13, 10, 13, 10]) ∧
    IpcClient.read_chunked_body true 2 []
        ([53, 13, 10, 72, 69, 76, 76, 79, 13, 10, 48, 13, 10, 13, 10] ++ [88, 89]) =
      some (.ok ([72, 69, 76, 76, 79], [88, 89])) := by
  refine ⟨C3_chunked_decoder.1 true 2 [] [48, 13, 10, 13, 10], ?_, ?_, ?_,
    C3_chunked_decoder.2.2.2.2 true [88, 89]⟩
  · exact C3_chunked_decoder.2.1 true 0 [] [122, 13, 10] [122, 13, 10] []
      (by decide) (by decide) (by decide) (by decide)
  · exact C3_chunked_decoder.2.2.1 true 0 [72, 73] [48, 13, 10, 13, 10, 99]
      [48, 13, 10] [13, 10, 99] [13, 10] [99]
      (by decide) (by decide) (by decide) (by decide) (by decide)
  · exact C3_chunked_decoder.2.2.2.1 true 1 2 []
      [51, 13, 10, 65, 66, 67, 13, 10, 48, 13, 10, 13, 10]
      [51, 13, 10] [65, 66, 67, 13, 10, 48, 13, 10, 13, 10]
      [65, 66, 67] [13, 10, 48, 13, 10, 13, 10] [13, 10] [48, 13, 10, 13, 10]
      (by decide) (by decide) (by decide) rfl (by decide)

/-- C4: response body framing in read_http_response follows the priority
order: a chunked transfer uses the chunked decoder (any parsed
Content-Length is ignored); otherwise a parsed Content-Length reads
exactly that many bytes, so the parsed body byte-length equals the
declared length; otherwise the body is read until the peer closes under
the 5-second guard, and expiry of that guard yields the distinct timeout
error rather than a generic protocol error.  The three end-to-end
evaluations run the full read_http_response on one response of each
framing mode. -/
theorem readExactP_ok_split (closed : Bool) :
    ∀ (n : Nat) (s c r : List Nat),
      readExactP closed n s = some (.ok (c, r)) → c ++ r = s := by
  intro n
  induction n with
  | zero =>
    intro s c r h
    simp [readExactP] at h
    simp [h.1, h.2]
  | succ m ih =>
    intro s c r h
    cases s with
    | nil =>
      simp only [readExactP] at h
      split at h <;> simp at h
    | cons b s' =>
      simp only [readExactP] at h
      cases hrec : readExactP closed m s' with
      | none => rw [hrec] at h; simp at h
      | some v =>
        cases v with
        | error e => rw [hrec] at h; simp at h
        | ok p =>
          obtain ⟨c', r'⟩ := p
          rw [hrec] at h
          simp only [Option.some.injEq, Except.ok.injEq, Prod.mk.injEq] at h
          obtain ⟨hc, hr⟩ := h
          subst hc; subst hr
          simpa using ih s' c' r' hrec

theorem C4_body_framing :
    (∀ (closed : Bool) (fuelC n : Nat) (s : List Nat),
      IpcClient.readBodyFramed closed fuelC true (some n) s =
        IpcClient.readBodyFramed closed fuelC true none s) ∧
    (∀ (closed : Bool) (fuelC n : Nat) (s body : List Nat),
      IpcClient.readBodyFramed closed fuelC false (some n) s = some (.ok body) →
      body.length = n ∧ body = s.take n) ∧
    (∀ (fuelC : Nat) (s : List Nat),
      IpcClient.readBodyFramed false fuelC false none s = some (.error .bodyTimeout)) ∧
    (IpcError.bodyTimeout ≠ IpcError.connClosed ∧
     IpcError.bodyTimeout ≠ IpcError.badStatusLine ∧
     IpcError.bodyTimeout ≠ IpcError.badStatusCode ∧
     IpcError.bodyTimeout ≠ IpcError.chunkParseErr) ∧
    (IpcClient.read_http_response true 5 5
        (asciiBytes "HTTP/1.1 200 OK\r\nTransfer-Encoding: chunked\r\nContent-Length: 999\r\n\r\n5\r\nHELLO\r\n0\r\n\r\n") =
      some (.ok ⟨200, asciiBytes "HELLO"⟩)) ∧
    (IpcClient.read_http_response true 5 5
        (asciiBytes "HTTP/1.1 200 OK\r\nContent-Length: 2\r\n\r\nAB") =
      some (.ok ⟨200, [65, 66]⟩)) ∧
    (IpcClient.read_http_response false 5 5 (asciiBytes "HTTP/1.1 200 OK\r\n\r\nAB") =
      some (.error .bodyTimeout)) := by
  refine ⟨?_, ?_, ?_, ⟨by decide, by decide, by decide, by decide⟩, by rfl, by rfl, by rfl⟩
  · intro closed fuelC n s
    rfl
  · intro closed fuelC n s body h
    simp only [IpcClient.readBodyFramed, Bool.false_eq_true, if_false] at h
    cases hre : readExactP closed n s with
    | none => rw [hre] at h; simp at h
    | some v =>
      cases v with
      | error e => rw [hre] at h; simp at h
      | ok p =>
        obtain ⟨bytes, r⟩ := p
        rw [hre] at h
        dsimp only at h
        by_cases hv : validUtf8 bytes = true
        · rw [hv] at h
          simp only [if_true, Option.some.injEq, Except.ok.injEq] at h
          subst h
          have hlen := readExactP_ok_length closed n s bytes r hre
          have hsplit := readExactP_ok_split closed n s bytes r hre
          refine ⟨hlen, ?_⟩
          rw [← hsplit, ← hlen]
          simp
        · simp only [Bool.not_eq_true] at hv
          rw [hv] at h
          simp at h
  · intro fuelC s
    rfl

/-- Witness for C4: with a declared Content-Length of 2 and 3 available
bytes, the parsed body is exactly the first 2 bytes. -/
theorem C4_body_framing_witness :
    ([65, 66] : List Nat).length = 2 ∧ ([65, 66] : List Nat) = [65, 66, 67].take 2 := by
  exact C4_body_framing.2.1 true 5 2 [65, 66, 67] [65, 66] rfl

/-- C7: for every response parsed by get or get_with_pool, a status code
in 200–299 inclusive yields the raw decoded body as the success value,
and any status code outside that range yields an error carrying the exact
code — never the body; concretely, a 404 response produces the error
identifying HTTP 404. -/
theorem C7_status_mapping :
    (∀ (closed : Bool) (fuelH fuelC : Nat) (s : List Nat) (resp : IpcHttpResponse),
      IpcClient.read_http_response closed fuelH fuelC s = some (.ok resp) →
      (200 ≤ resp.status_code ∧ resp.status_code < 300 →
        IpcClient.get closed fuelH fuelC s = some (.ok resp.body) ∧
        IpcClient.get_with_pool closed fuelH fuelC s = some (.ok resp.body)) ∧
      (¬(200 ≤ resp.status_code ∧ resp.status_code < 300) →
        IpcClient.get closed fuelH fuelC s = some (.error (.httpStatus resp.status_code)) ∧
        IpcClient.get_with_pool closed fuelH fuelC s =
          some (.error (.httpStatus resp.status_code)))) ∧
    (IpcClient.get true 5 5 (asciiBytes "HTTP/1.1 404 Not Found\r\nContent-Length: 0\r\n\r\n") =
      some (.error (.httpStatus 404))) ∧
    (IpcClient.get_with_pool true 5 5 (asciiBytes "HTTP/1.1 404 Not Found\r\nContent-Length: 0\r\n\r\n") =
      some (.error (.httpStatus 404))) := by
  refine ⟨?_, by rfl, by rfl⟩
  intro closed fuelH fuelC s resp h
  constructor
  · intro hin
    constructor
    · simp only [IpcClient.get, h, if_pos hin]
    · simp only [IpcClient.get_with_pool, h, if_pos hin]
  · intro hout
    constructor
    · simp only [IpcClient.get, h, if_neg hout]
    · simp only [IpcClient.get_with_pool, h, if_neg hout]

/-- Witness for C7: a concrete 200 response yields its body through both
wrappers, and a concrete 404 response yields the HTTP 404 error. -/
theorem C7_status_mapping_witness :
    (IpcClient.get true 5 5 (asciiBytes "HTTP/1.1 200 OK\r\nContent-Length: 2\r\n\r\nAB") =
        some (.ok [65, 66]) ∧
      IpcClient.get_with_pool true 5 5 (asciiBytes "HTTP/1.1 200 OK\r\nContent-Length: 2\r\n\r\nAB") =
        some (.ok [65, 66])) ∧
    (IpcClient.get true 5 5 (asciiBytes "HTTP/1.1 404 Not Found\r\nContent-Length: 0\r\n\r\n") =
        some (.error (.httpStatus 404)) ∧
      IpcClient.get_with_pool true 5 5 (asciiBytes "HTTP/1.1 404 Not Found\r\nContent-Length: 0\r\n\r\n") =
        some (.error (.httpStatus 404))) := by
  constructor
  · exact (C7_status_mapping.1 true 5 5
      (asciiBytes "HTTP/1.1 200 OK\r\nContent-Length: 2\r\n\r\nAB") ⟨200, [65, 66]⟩ rfl).1
      (by exact ⟨by norm_num, by norm_num⟩)
  · exact (C7_status_mapping.1 true 5 5
      (asciiBytes "HTTP/1.1 404 Not Found\r\nContent-Length: 0\r\n\r\n") ⟨404, []⟩ rfl).2
      (by intro hc; exact absurd hc.2 (by norm_num))

/-! ## Connector lemmas -/

theorem connectLoop_busy_run (att : Nat → AttemptRes) (msgs : Nat → Nat) :
    ∀ (k retry fuel : Nat) (lastE : Option Nat) (sleeps : List Nat),
      (∀ i, i < k → att (retry + i) = .err (some 231) (msgs (retry + i))) →
      connectLoop att (fuel + k) retry lastE sleeps =
        connectLoop att fuel (retry + k)
          (if k = 0 then lastE else some (msgs (retry + k - 1)))
          (sleeps ++ (List.range k).map (fun i => 15 * (retry + i + 1))) := by
  intro k
  induction k with
  | zero => intro retry fuel lastE sleeps h; simp
  | succ m ih =>
    intro retry fuel lastE sleeps h
    have hatt : att retry = .err (some 231) (msgs retry) := by
      simpa using h 0 (Nat.succ_pos m)
    have hfe : fuel + (m + 1) = (fuel + m) + 1 := by omega
    have step : connectLoop att (fuel + (m + 1)) retry lastE sleeps =
        connectLoop att (fuel + m) (retry + 1) (some (msgs retry))
          (sleeps ++ [15 * (retry + 1)]) := by
      rw [hfe]
      simp [connectLoop, hatt]
    rw [step]
    rw [ih (retry + 1) fuel (some (msgs retry)) (sleeps ++ [15 * (retry + 1)])
      (by
        intro i hi
        have := h (i + 1) (by omega)
        rw [show retry + 1 + i = retry + (i + 1) by omega]
        exact this)]
    have h1 : retry + 1 + m = retry + (m + 1) := by omega
    have h2 : (if m = 0 then some (msgs retry) else some (msgs (retry + (m + 1) - 1))) =
        (if m + 1 = 0 then lastE else some (msgs (retry + (m + 1) - 1))) := by
      rw [if_neg (Nat.succ_ne_zero m)]
      by_cases hm : m = 0
      · subst hm
        simp
      · rw [if_neg hm]
    have h3 : (sleeps ++ [15 * (retry + 1)]) ++
          (List.range m).map (fun i => 15 * (retry + 1 + i + 1)) =
        sleeps ++ (List.range (m + 1)).map (fun i => 15 * (retry + i + 1)) := by
      rw [List.append_assoc]
      congr 1
      rw [List.range_succ_eq_map, List.map_cons, List.map_map, List.singleton_append]
      have hfun : (fun i => 15 * (retry + 1 + i + 1)) =
          ((fun i => 15 * (retry + i + 1)) ∘ Nat.succ) := by
        funext i
        simp only [Function.comp_apply]
        omega
      rw [hfun]
    rw [h1, h2, h3]

theorem connectLoop_congr (att attB : Nat → AttemptRes) :
    ∀ (fuel retry : Nat) (lastE : Option Nat) (sleeps : List Nat),
      (∀ i, retry ≤ i → i < retry + fuel → att i = attB i) →
      connectLoop att fuel retry lastE sleeps = connectLoop attB fuel retry lastE sleeps := by
  intro fuel
  induction fuel with
  | zero => intro retry lastE sleeps h; rfl
  | succ m ih =>
    intro retry lastE sleeps h
    have hr : att retry = attB retry := h retry le_rfl (by omega)
    cases hv : attB retry with
    | ok => simp [connectLoop, hr, hv]
    | err raw msg =>
      simp only [connectLoop, hr, hv]
      by_cases hb : raw = some 231
      · rw [if_pos hb, if_pos hb]
        exact ih (retry + 1) (some msg) (sleeps ++ [15 * (retry + 1)])
          (fun i hl hu => h i (by omega) (by omega))
      · rw [if_neg hb, if_neg hb]

/-- C9: on the named-pipe platform, connect retries the open only when
the OS reports error code 231 (pipe busy), making at most 20 attempts in
total (outcomes of attempts beyond index 19 are never consulted),
sleeping 15 ms × attempt_number between attempts with linearly increasing
backoff; any other error aborts the loop immediately with that error, and
exhausting the retries returns a connect error carrying the last
underlying OS error. -/
theorem C9_connect_retry :
    (∀ (att : Nat → AttemptRes) (k : Nat) (msgs : Nat → Nat), k < 20 →
      (∀ i, i < k → att i = .err (some 231) (msgs i)) → att k = .ok →
      connect_windows att = (.connected k, (List.range k).map (fun i => 15 * (i + 1)))) ∧
    (∀ (att : Nat → AttemptRes) (k : Nat) (msgs : Nat → Nat) (raw : Option Int) (msg : Nat),
      k < 20 → (∀ i, i < k → att i = .err (some 231) (msgs i)) →
      att k = .err raw msg → raw ≠ some 231 →
      connect_windows att = (.failed (some msg), (List.range k).map (fun i => 15 * (i + 1)))) ∧
    (∀ (att : Nat → AttemptRes) (msgs : Nat → Nat),
      (∀ i, i < 20 → att i = .err (some 231) (msgs i)) →
      connect_windows att =
        (.failed (some (msgs 19)), (List.range 20).map (fun i => 15 * (i + 1)))) ∧
    (∀ att attB : Nat → AttemptRes, (∀ i, i < 20 → att i = attB i) →
      connect_windows att = connect_windows attB) := by
  refine ⟨?_, ?_, ?_, ?_⟩
  · intro att k msgs hk hbusy hok
    unfold connect_windows
    rw [show (20 : Nat) = ((19 - k) + 1) + k by omega]
    rw [connectLoop_busy_run att msgs k 0 ((19 - k) + 1) none []
      (by intro i hi; simpa using hbusy i hi)]
    simp only [Nat.zero_add, List.nil_append]
    simp [connectLoop, hok]
  · intro att k msgs raw msg hk hbusy herr hraw
    unfold connect_windows
    rw [show (20 : Nat) = ((19 - k) + 1) + k by omega]
    rw [connectLoop_busy_run att msgs k 0 ((19 - k) + 1) none []
      (by intro i hi; simpa using hbusy i hi)]
    simp only [Nat.zero_add, List.nil_append]
    simp only [connectLoop, herr]
    rw [if_neg hraw]
  · intro att msgs hbusy
    unfold connect_windows
    rw [show (20 : Nat) = 0 + 20 by omega]
    rw [connectLoop_busy_run att msgs 20 0 0 none []
      (by intro i hi; simpa using hbusy i hi)]
    simp [connectLoop]
  · intro att attB h
    exact connectLoop_congr att attB 20 0 none [] (fun i hl hu => h i (by omega))

/-- Witness for C9: three busy errors then success connects on attempt 3
after sleeping 15, 30, 45 ms; a non-busy error on the first attempt
aborts at once with no sleep; twenty busy errors exhaust the loop and
surface the last error. -/
theorem C9_connect_retry_witness :
    connect_windows (fun i => if i < 3 then .err (some 231) i else .ok) =
      (.connected 3, (List.range 3).map (fun i => 15 * (i + 1))) ∧
    connect_windows (fun i => if i = 0 then .err (some 5) 7 else .ok) =
      (.failed (some 7), (List.range 0).map (fun i => 15 * (i + 1))) ∧
    connect_windows (fun _ => .err (some 231) 42) =
      (.failed (some 42), (List.range 20).map (fun i => 15 * (i + 1))) ∧
    (List.range 3).map (fun i => 15 * (i + 1)) = [15, 30, 45] := by
  refine ⟨?_, ?_, ?_, by decide⟩
  · exact C9_connect_retry.1 (fun i => if i < 3 then .err (some 231) i else .ok) 3
      (fun i => i) (by omega) (fun i hi => by simp [hi]) (by simp)
  · exact C9_connect_retry.2.1 (fun i => if i = 0 then .err (some 5) 7 else .ok) 0
      (fun i => i) (some 5) 7 (by omega) (fun i hi => absurd hi (by omega))
      (by simp) (by decide)
  · exact C9_connect_retry.2.2.1 (fun _ => .err (some 231) 42) (fun _ => 42)
      (fun i hi => rfl)

/-! ## Tester lemmas -/

theorem wrapI32_eq_self (d : Int) (h1 : -2147483648 ≤ d) (h2 : d < 2147483648) :
    wrapI32 d = d := by
  have e31 : (2 : Int) ^ 31 = 2147483648 := by norm_num
  have e32 : (2 : Int) ^ 32 = 4294967296 := by norm_num
  unfold wrapI32
  rw [e31, e32, Int.emod_eq_of_lt (by omega) (by omega)]
  omega

theorem filter_map_length {α β : Type} (f : α → β) (p : β → Bool) :
    ∀ l : List α, ((l.map f).filter p).length = (l.filter (fun a => p (f a))).length := by
  intro l
  induction l with
  | nil => rfl
  | cons a t ih =>
    simp only [List.map_cons, List.filter_cons]
    by_cases h : p (f a) = true
    · simp [h, ih]
    · simp [h, ih]

/-- C5: test_single_node returns the integer value of the JSON body's
delay field whenever the request succeeds and that field is present (even
when the value is ≤ 0), and returns -1 whenever the field is missing, the
body fails to parse as JSON, the underlying pooled request fails, or the
per-target deadline elapses; request errors indicating HTTP 503 or 504
take the timeout classification path rather than the generic-failure one
(both paths report -1). -/
theorem C5_single_node_classification :
    (∀ d : Int, -2147483648 ≤ d → d < 2147483648 →
      test_single_node (.parsed (some d)) = d) ∧
    (test_single_node (.parsed (some (-5))) = -5) ∧
    (test_single_node (.parsed none) = -1) ∧
    (test_single_node .parseFail = -1) ∧
    (∀ e : IpcError, test_single_node (.reqErr e) = -1) ∧
    (test_single_node .elapsed = -1) ∧
    (errContainsHttp503or504 (.httpStatus 503) = true ∧
     errContainsHttp503or504 (.httpStatus 504) = true ∧
     errContainsHttp503or504 (.httpStatus 500) = false ∧
     test_single_node (.reqErr (.httpStatus 503)) = timeout_result ∧
     test_single_node (.reqErr (.httpStatus 504)) = timeout_result) := by
  refine ⟨?_, by decide, rfl, rfl, ?_, rfl, by decide, by decide, by decide, by decide,
    by decide⟩
  · intro d h1 h2
    simp only [test_single_node]
    exact wrapI32_eq_self d h1 h2
  · intro e
    simp [test_single_node, timeout_result]

/-- Witness for C5: a positive in-range delay and a non-positive delay are
both returned verbatim. -/
theorem C5_single_node_classification_witness :
    test_single_node (.parsed (some 42)) = 42 ∧
    test_single_node (.parsed (some (-3))) = -3 := by
  exact ⟨C5_single_node_classification.1 42 (by norm_num) (by norm_num),
    C5_single_node_classification.1 (-3) (by norm_num) (by norm_num)⟩

/-- C6: for every batch request, the single completion summary has
total_count equal to the number of input target names, success_count
equal to the number of results with strictly positive delay, is_successful
always true, and error_message always absent — even when every individual
probe fails. -/
theorem C6_batch_summary :
    ∀ (node_names : List String) (delayOf : String → Int) (concurrency : Nat),
      (handle_batch_delay_test_request node_names delayOf concurrency).total_count =
        node_names.length ∧
      (handle_batch_delay_test_request node_names delayOf concurrency).success_count =
        (node_names.filter (fun n => delayOf n > 0)).length ∧
      (handle_batch_delay_test_request node_names delayOf concurrency).is_successful = true ∧
      (handle_batch_delay_test_request node_names delayOf concurrency).error_message = none := by
  intro names delayOf conc
  refine ⟨rfl, ?_, rfl, rfl⟩
  simp only [handle_batch_delay_test_request, batch_test_delays]
  cases names with
  | nil => rfl
  | cons a t =>
    simp only [List.isEmpty_cons, Bool.false_eq_true, if_false]
    exact filter_map_length (fun n => (⟨n, delayOf n⟩ : BatchTestResult))
      (fun r => decide (r.delay_ms > 0)) (a :: t)

/-- C10: an i64 delay outside the 32-bit signed range is truncated by the
wrapping i64-to-i32 cast rather than saturated or rejected: 2^32 becomes
0, 2^31 becomes -2147483648, 2^32 + 7 becomes 7, 2^32 - 1 becomes -1, so
an out-of-range positive delay can be reported as zero, negative, or an
unrelated positive value — and the zero case is tallied as a failure in
the batch success count. -/
theorem C10_delay_wrapping_cast :
    (∀ d : Int, test_single_node (.parsed (some d)) = wrapI32 d) ∧
    (test_single_node (.parsed (some (2 ^ 32))) = 0) ∧
    (test_single_node (.parsed (some (2 ^ 31))) = -2147483648) ∧
    (test_single_node (.parsed (some (2 ^ 32 + 7))) = 7) ∧
    (test_single_node (.parsed (some (2 ^ 32 - 1))) = -1) ∧
    ((handle_batch_delay_test_request ["node"]
        (fun _ => test_single_node (.parsed (some (2 ^ 32)))) 1).success_count = 0) := by
  exact ⟨fun d => rfl, by decide, by decide, by decide, by decide, by decide⟩
